import Mathlib

/-!
Verification of the add-on updater's update-resolution and secure-download
pipeline (module addonUpdateProtocols.py).

Strings are modeled as List Char.  Network effects are modeled by passing the
outcome of each urlopen call as an explicit parameter; JSON payloads are the
decoded values those calls would have produced.
-/

namespace AddonUpdater

/-! ## String machinery used by fetchAddonInfo's version extraction

The source extracts a version with
  re.search("(?P<name>)-(?P<version>.*).nvda-addon", addonUrl.split("/")[-1])
The group (?P<name>) is empty, so the pattern is: a literal "-", a greedy ".*"
capture, one wildcard character, then the literal "nvda-addon".  re.search
takes the leftmost start position admitting a match (hence the first "-")
and the greedy capture then extends to the last admissible "nvda-addon"
occurrence.  A "." in the pattern matches any character except a newline.
-/

/-- Python: addonUrl.split("/")[-1], i.e. everything after the last slash. -/
def lastSegment (s : List Char) : List Char :=
  (s.reverse.takeWhile (fun c => c != '/')).reverse

/-- Semantics of the regex wildcard ".": any character but a newline. -/
def dotMatches (c : Char) : Bool := c != '\n'

/-- The literal tail "nvda-addon" of the version-extraction pattern. -/
def nvdaAddonChars : List Char := ['n', 'v', 'd', 'a', '-', 'a', 'd', 'd', 'o', 'n']

/-- The literal ".nvda-addon" used by the substring test on catalog URLs. -/
def nvdaAddonDotLit : List Char := '.' :: nvdaAddonChars

/-- Does a match of ".*" of length m, one wildcard character, then the literal
"nvda-addon" fit inside t?  (m is the length of the version capture.) -/
def candAt (t : List Char) (m : Nat) : Bool :=
  nvdaAddonChars.isPrefixOf (t.drop (m + 1)) && (t.take (m + 1)).all dotMatches

/-- All capture lengths admissible after the matched "-". -/
def versionCandidates (t : List Char) : List Nat :=
  (List.range t.length).filter (candAt t)

/-- Greedy semantics: the capture group takes the largest admissible length. -/
def greedyVersion (t : List Char) : Option (List Char) :=
  (versionCandidates t).getLast?.map (fun m => t.take m)

/-- re.search over the whole segment: the match starts at the leftmost "-"
whose tail admits a match of the rest of the pattern. -/
def regexSearchVersion : List Char → Option (List Char)
  | [] => none
  | c :: rest =>
    if c = '-' then
      match greedyVersion rest with
      | some v => some v
      | none => regexSearchVersion rest
    else
      regexSearchVersion rest

/-- Python's substring test (the "in" operator on str). -/
def containsSub (sep : List Char) : List Char → Bool
  | [] => sep.isEmpty
  | c :: rest => sep.isPrefixOf (c :: rest) || containsSub sep rest

/-- Chars strictly after the first occurrence of sep (sep is known to occur):
the tail that Python's str.split(sep) continues scanning after element 0. -/
def dropThroughFirst (sep : List Char) : List Char → List Char
  | [] => []
  | c :: rest =>
    if sep.isPrefixOf (c :: rest) then (c :: rest).drop sep.length
    else dropThroughFirst sep rest

/-- Chars before the next occurrence of sep (the whole list if sep is absent):
element 1 of Python's str.split(sep) is takeUntilSep applied after
dropThroughFirst. -/
def takeUntilSep (sep : List Char) : List Char → List Char
  | [] => []
  | c :: rest =>
    if sep.isPrefixOf (c :: rest) then []
    else c :: takeUntilSep sep rest

/-- Source lines 284-285:
  if addon in version: version = version.split(addon)[1][1:]
split(addon)[1] is the chunk between the first and second occurrences of the
add-on name.  An empty add-on name would make split raise ValueError, killing
the worker thread, so no version is produced in that case. -/
def stripNameFromVersion (addon v : List Char) : Option (List Char) :=
  if containsSub addon v then
    if addon.isEmpty then none
    else some ((takeUntilSep addon (dropThroughFirst addon v)).drop 1)
  else some v

/-- Source lines 278-285: regex extraction over the last URL segment (a failed
search raises inside the try and the add-on is skipped), then the name-strip
step. -/
def extractVersion (addon url : List Char) : Option (List Char) :=
  match regexSearchVersion (lastSegment url) with
  | none => none
  | some v => stripNameFromVersion addon v

end AddonUpdater

namespace AddonUpdater

/-! ## Lemmas about the extraction machinery -/

theorem filter_range_getLast (p : Nat → Bool) (m N : Nat) (hmN : m < N) (hpm : p m = true)
    (hup : ∀ k, m < k → p k = false) :
    ((List.range N).filter p).getLast? = some m := by
  induction N with
  | zero => omega
  | succ n ih =>
    rw [List.range_succ, List.filter_append]
    by_cases hn : n = m
    · subst hn
      simp [List.filter, hpm, List.getLast?_concat]
    · have hmn : m < n := by omega
      have hf : p n = false := hup n (by omega)
      simp only [List.filter, hf]
      simpa using ih hmn

theorem greedyVersion_append_suffix (w : List Char) (hw : w.all dotMatches = true) :
    greedyVersion (w ++ '.' :: nvdaAddonChars) = some w := by
  have hsplit : w ++ '.' :: nvdaAddonChars = (w ++ ['.']) ++ nvdaAddonChars := by
    simp [List.append_assoc]
  have hlen : (w ++ '.' :: nvdaAddonChars).length = w.length + 11 := by
    simp [List.length_append, nvdaAddonChars]
  have hcand : candAt (w ++ '.' :: nvdaAddonChars) w.length = true := by
    unfold candAt
    have hdrop : (w ++ '.' :: nvdaAddonChars).drop (w.length + 1) = nvdaAddonChars := by
      rw [hsplit]
      exact List.drop_left' (by simp)
    have htake : (w ++ '.' :: nvdaAddonChars).take (w.length + 1) = w ++ ['.'] := by
      rw [hsplit]
      exact List.take_left' (by simp)
    rw [hdrop, htake]
    simp [List.all_append, hw, dotMatches, List.isPrefixOf_iff_prefix]
  have hup : ∀ k, w.length < k → candAt (w ++ '.' :: nvdaAddonChars) k = false := by
    intro k hk
    have h1 : nvdaAddonChars.isPrefixOf ((w ++ '.' :: nvdaAddonChars).drop (k + 1)) = false := by
      apply Bool.eq_false_iff.mpr
      intro hcon
      have hle := (List.isPrefixOf_iff_prefix.mp hcon).length_le
      rw [List.length_drop, hlen] at hle
      have : nvdaAddonChars.length = 10 := by decide
      omega
    unfold candAt
    rw [h1]
    rfl
  unfold greedyVersion versionCandidates
  rw [hlen, filter_range_getLast (candAt _) w.length (w.length + 11) (by omega) hcand hup]
  have htk : (w ++ '.' :: nvdaAddonChars).take w.length = w := List.take_left w _
  simp [htk]

theorem regexSearchVersion_skip (n t : List Char) (hn : '-' ∉ n)
    (ht : (greedyVersion t).isSome = true) :
    regexSearchVersion (n ++ '-' :: t) = greedyVersion t := by
  induction n with
  | nil =>
    simp only [List.nil_append, regexSearchVersion, if_pos rfl]
    cases h : greedyVersion t with
    | none => rw [h] at ht; simp at ht
    | some v => rfl
  | cons c cs ih =>
    have hc : ¬(c = '-') := fun h => hn (by simp [h])
    simp only [List.cons_append, regexSearchVersion, if_neg hc]
    exact ih (fun h => hn (List.mem_cons_of_mem _ h))

theorem isPrefixOf_append_self (l t : List Char) : l.isPrefixOf (l ++ t) = true :=
  List.isPrefixOf_iff_prefix.mpr (List.prefix_append l t)

theorem containsSub_append_self (n rest : List Char) : containsSub n (n ++ rest) = true := by
  cases n with
  | nil =>
    cases rest with
    | nil => rfl
    | cons c cs => simp [containsSub, List.isPrefixOf]
  | cons a as =>
    show containsSub (a :: as) (a :: (as ++ rest)) = true
    unfold containsSub
    rw [← List.cons_append, isPrefixOf_append_self]
    rfl

theorem dropThroughFirst_append_self (n rest : List Char) (hne : n ≠ []) :
    dropThroughFirst n (n ++ rest) = rest := by
  cases n with
  | nil => exact absurd rfl hne
  | cons a as =>
    show dropThroughFirst (a :: as) (a :: (as ++ rest)) = rest
    unfold dropThroughFirst
    rw [← List.cons_append, isPrefixOf_append_self]
    simp [List.drop_left]

theorem takeUntilSep_eq_self (n v : List Char) (h : containsSub n v = false) :
    takeUntilSep n v = v := by
  induction v with
  | nil => rfl
  | cons c cs ih =>
    unfold containsSub at h
    rw [Bool.or_eq_false_iff] at h
    unfold takeUntilSep
    rw [h.1]
    simp [ih h.2]

theorem isPrefixOf_cons_of_head_ne (a : Char) (as : List Char) (c : Char) (cs : List Char)
    (h : a ≠ c) : (a :: as).isPrefixOf (c :: cs) = false := by
  simp [List.isPrefixOf, h]

end AddonUpdater

namespace AddonUpdater

/-! ## C1: version extraction -/

/-- C1 counterexample.  The claim asserts that for every URL whose last path
segment has the form (name)-(version).nvda-addon the extracted version is
exactly (version).  For the add-on named "test" and the segment
"test-test1.nvda-addon" (name "test", version "test1"), the name-strip step
of fetchAddonInfo (source lines 284-285) fires because "test" occurs inside
the parsed version "test1", and the extraction yields "" instead of
"test1". -/
theorem c1_counterexample :
    extractVersion ("test".toList) ("host/test-test1.nvda-addon".toList) ≠
      some ("test1".toList) := by decide

/-- C1 (amended).  Version extraction in fetchAddonInfo: for an add-on name
that is nonempty, contains no "-" and no newline, and does not occur as a
substring of the version string, and a version string without newlines:
(1) a URL whose last path segment is (name)-(version).nvda-addon extracts
exactly (version); and (2) a URL whose last path segment is
(name)-(name)-(version).nvda-addon (the name embedded inside the parsed
version) has the name prefix and following separator stripped, recovering
(version). -/
theorem c1_version_extraction (n v url1 url2 : List Char)
    (hne : n ≠ [])
    (hdash : '-' ∉ n)
    (hnlN : n.all dotMatches = true)
    (hnlV : v.all dotMatches = true)
    (hsub : containsSub n v = false)
    (h1 : lastSegment url1 = n ++ '-' :: (v ++ '.' :: nvdaAddonChars))
    (h2 : lastSegment url2 = n ++ '-' :: ((n ++ '-' :: v) ++ '.' :: nvdaAddonChars)) :
    extractVersion n url1 = some v ∧ extractVersion n url2 = some v := by
  constructor
  · unfold extractVersion
    rw [h1, regexSearchVersion_skip _ _ hdash (by rw [greedyVersion_append_suffix v hnlV]; rfl),
      greedyVersion_append_suffix v hnlV]
    show stripNameFromVersion n v = some v
    unfold stripNameFromVersion
    rw [hsub]
    rfl
  · unfold extractVersion
    have hw : (n ++ '-' :: v).all dotMatches = true := by
      rw [List.all_append]
      simp only [List.all_cons, hnlN, hnlV]
      rfl
    rw [h2, regexSearchVersion_skip _ _ hdash (by rw [greedyVersion_append_suffix _ hw]; rfl),
      greedyVersion_append_suffix _ hw]
    show stripNameFromVersion n (n ++ '-' :: v) = some v
    unfold stripNameFromVersion
    rw [containsSub_append_self n ('-' :: v)]
    have hemp : n.isEmpty = false := by
      cases n with
      | nil => exact absurd rfl hne
      | cons a as => rfl
    rw [hemp]
    simp only [if_true, Bool.false_eq_true, if_false]
    rw [dropThroughFirst_append_self n ('-' :: v) hne]
    have hpf : n.isPrefixOf ('-' :: v) = false := by
      cases n with
      | nil => exact absurd rfl hne
      | cons a as => exact isPrefixOf_cons_of_head_ne a as '-' v (fun h => hdash (by simp [h]))
    unfold takeUntilSep
    rw [hpf]
    simp only [Bool.false_eq_true, if_false]
    rw [takeUntilSep_eq_self n v hsub]
    rfl

/-- C1 amended-claim witness at the spec's round-trip examples. -/
theorem c1_version_extraction_witness :
    extractVersion ("myext".toList) ("https://host/files/myext-1.2.3.nvda-addon".toList) =
        some ("1.2.3".toList) ∧
    extractVersion ("myext".toList) ("https://host/files/myext-myext-1.2.3.nvda-addon".toList) =
        some ("1.2.3".toList) :=
  c1_version_extraction ("myext".toList) ("1.2.3".toList) _ _
    (by decide) (by decide) (by decide) (by decide) (by decide) (by decide) (by decide)

end AddonUpdater

namespace AddonUpdater

/-! ## Data model

Python dynamic values from the metadata JSON are modeled by their runtime
type tag plus the payloads the pipeline actually consumes: the addonKey
string and the two version lists, the latter taken as integer triples per
the feed schema minimumNVDAVersion / lastTestedNVDAVersion : [int,int,int].
-/

/-- Host API version triples (year, major, minor). -/
abbrev Ver3 := Nat × Nat × Nat

/-- Runtime type tag of a JSON-decoded Python value. -/
inductive PyType
  | str
  | list
  | other
  deriving DecidableEq

/-- One add-on's record in addonsData["active"], as fetchAddonInfo sees it.
A field of value none is absent from the dict. -/
structure RawMetadata where
  summaryType : Option PyType
  authorType : Option PyType
  minimumType : Option PyType
  lastTestedType : Option PyType
  addonKeyField : Option (PyType × List Char)
  minimumNVDAVersion : Ver3
  lastTestedNVDAVersion : Ver3
  deriving DecidableEq

/-- Source validateAddonMetadata (lines 168-182): type checks over the four
required fields plus addonKey when present.  Accessing a missing required
field raises KeyError (the comprehension indexes the dict directly), which
the result none records; some b is a normal return of b. -/
def validateAddonMetadata (m : RawMetadata) : Option Bool :=
  match m.summaryType, m.authorType, m.minimumType, m.lastTestedType with
  | some ts, some ta, some tm, some tl =>
    some (decide (ts = PyType.str) && decide (ta = PyType.str) &&
      decide (tm = PyType.list) && decide (tl = PyType.list) &&
      (match m.addonKeyField with
       | none => true
       | some (tk, _) => decide (tk = PyType.str)))
  | _, _, _, _ => none

/-- Python tuple comparison on 3-tuples: lexicographic, first unequal
component decides. -/
def pyTupleLe (a b : Ver3) : Bool :=
  if a.1 < b.1 then true
  else if b.1 < a.1 then false
  else if a.2.1 < b.2.1 then true
  else if b.2.1 < a.2.1 then false
  else decide (a.2.2 ≤ b.2.2)

/-- Source addonCompatibleAccordingToMetadata (lines 186-200).  inDevUpdates
is "addon in addonUtils.updateState[devUpdates]"; current and backCompatTo
are the host constants addonAPIVersion.CURRENT / BACK_COMPAT_TO. -/
def addonCompatibleAccordingToMetadata (inDevUpdates : Bool) (md : RawMetadata)
    (current backCompatTo : Ver3) : Bool :=
  if inDevUpdates then true
  else pyTupleLe md.minimumNVDAVersion current && pyTupleLe backCompatTo md.lastTestedNVDAVersion

/-- The built-in name-to-key table shipped with the add-on (source lines
78-157). -/
def names2urls : List (String × String) := [
  ("addonUpdater", "nvda3208"),
  ("Access8Math", "access8math"),
  ("addonsHelp", "addonshelp"),
  ("audioChart", "audiochart"),
  ("beepKeyboard", "beepkeyboard"),
  ("bluetoothaudio", "btaudio"),
  ("browsernav", "browsernav"),
  ("calibre", "cae"),
  ("charInfo", "chari"),
  ("checkGestures", "cig"),
  ("classicSelection", "clsel"),
  ("clipContentsDesigner", "ccd"),
  ("clipspeak", "cs"),
  ("clock", "cac"),
  ("consoleToolkit", "consoletoolkit"),
  ("controlUsageAssistant", "cua"),
  ("dayOfTheWeek", "dw"),
  ("debugHelper", "debughelper"),
  ("developerToolkit", "devtoolkit"),
  ("dropbox", "dx"),
  ("easyTableNavigator", "etn"),
  ("emoticons", "emo"),
  ("eMule", "em"),
  ("enhancedTouchGestures", "ets"),
  ("extendedWinamp", "ew"),
  ("focusHighlight", "fh"),
  ("goldenCursor", "gc"),
  ("goldwave", "gwv"),
  ("IndentNav", "indentnav"),
  ("inputLock", "inputlock"),
  ("instantTranslate", "it"),
  ("killNVDA", "killnvda"),
  ("lambda", "lambda"),
  ("mp3DirectCut", "mp3dc"),
  ("Mozilla", "moz"),
  ("noBeepsSpeechMode", "nb"),
  ("NotepadPlusPlus", "NotepadPlusPlus"),
  ("numpadNavMode", "numpadNav"),
  ("nvSpeechPlayer", "nvsp"),
  ("objLocTones", "objLoc"),
  ("objPad", "objPad"),
  ("ocr", "ocr"),
  ("outlookExtended", "outlookextended"),
  ("pcKbBrl", "pckbbrl"),
  ("phoneticPunctuation", "phoneticpunc"),
  ("placeMarkers", "pm"),
  ("proxy", "nvdaproxy"),
  ("quickDictionary", "quickdictionary"),
  ("readFeeds", "rf"),
  ("remote", "nvdaremote"),
  ("reportPasswords", "rp"),
  ("reportSymbols", "rsy"),
  ("resourceMonitor", "rm"),
  ("reviewCursorCopier", "rccp"),
  ("sayCurrentKeyboardLanguage", "ckbl"),
  ("SentenceNav", "sentencenav"),
  ("speakPasswords", "spp"),
  ("speechHistory", "sps"),
  ("stationPlaylist", "spl"),
  ("switchSynth", "sws"),
  ("synthRingSettingsSelector", "synthrings"),
  ("systrayList", "st"),
  ("textInformation", "txtinfo"),
  ("textnav", "textnav"),
  ("timezone", "tz"),
  ("toneMaster", "tmast"),
  ("tonysEnhancements", "tony"),
  ("toolbarsExplorer", "tbx"),
  ("trainingKeyboardCommands", "trainingkbdcmd"),
  ("unicodeBrailleInput", "ubi"),
  ("updateChannel", "updchannelselect"),
  ("virtualRevision", "VR"),
  ("VLC", "vlc-18"),
  ("wintenApps", "w10"),
  ("winWizard", "winwizard"),
  ("wordCount", "wc"),
  ("wordNav", "wordnav"),
  ("zoomEnhancements", "zoom")]

/-- Dict lookup names2urls[addon] (KeyError modeled as none). -/
def names2urlsLookup (addon : List Char) : Option (List Char) :=
  (names2urls.find? (fun p => p.1.toList == addon)).map (fun p => p.2.toList)

/-- Add-ons with a built-in update feature (source lines 161-164). -/
def addonsWithUpdaters : List String := ["BrailleExtender", "Weather Plus"]

/-- The entry curAddons[name] built by checkForAddonUpdates (line 389). -/
structure ManifestInfo where
  summary : List Char
  version : List Char
  channel : Option (List Char)
  deriving DecidableEq

/-- The entry info[addon] written by fetchAddonInfo (line 287). -/
structure UpdateEntry where
  curVersion : List Char
  version : List Char
  path : List Char
  deriving DecidableEq

/-- Outcome of one urlopen call: a successful response carrying the decoded
payload, an IOError whose reason is CERTIFICATE_VERIFY_FAILED, or any other
IOError (with a reason attribute). -/
inductive FetchAttempt (α : Type)
  | success (d : α)
  | certError
  | otherIOError
  deriving DecidableEq

/-- Source lines 244-269, the secondary-URL protocol of fetchAddonInfo: open
the community file getter for the addon key (first attempt); on a
certificate failure refresh root certificates and retry once, an exception
from the retry killing the worker; any other IOError leaves res as None.  A
response survives only with code 200, and contributes its resolved URL. -/
def secondaryResolve (first retry : FetchAttempt (Nat × List Char)) : Option (List Char) :=
  match first with
  | .success (code, url) => if code = 200 then some url else none
  | .otherIOError => none
  | .certError =>
    match retry with
    | .success (code, url) => if code = 200 then some url else none
    | .certError => none
    | .otherIOError => none

/-- Everything fetchAddonInfo reads besides its explicit arguments: the
metadata map addonsData["active"], the user's devUpdates set, the fetched
catalog dict (results), the secondary urlopen outcomes per addon key, the
file-host base URL URLs.communityHostedFile (a constant living in urls.py),
and the host version constants. -/
structure FetchDeps where
  activeMetadata : List Char → Option RawMetadata
  devUpdates : List Char → Bool
  catalog : List Char → Option (List Char)
  secondary : List Char → FetchAttempt (Nat × List Char) × FetchAttempt (Nat × List Char)
  hostedBase : List Char
  current : Ver3
  backCompatTo : Ver3

/-- Source lines 210-228: metadata presence and validation, then the addon
key, preferring a validated metadata key and falling back to the built-in
names2urls table.  Result none: the add-on is skipped (no key anywhere) or
its worker died (KeyError inside validation).  Result some (m, k): key k,
with m the validated metadata when present and trusted. -/
def resolveAddonKey (activeMd : Option RawMetadata) (addon : List Char) :
    Option (Option RawMetadata × List Char) :=
  let step : Option (Option RawMetadata) :=
    match activeMd with
    | none => some none
    | some md =>
      match validateAddonMetadata md with
      | none => none
      | some true => some (some md)
      | some false => some none
  match step with
  | none => none
  | some metaOpt =>
    match metaOpt.bind (fun md => md.addonKeyField.map Prod.snd) with
    | some k => some (metaOpt, k)
    | none => (names2urlsLookup addon).map (fun k => (metaOpt, k))

/-- Source lines 208-285 up to version extraction: the per-add-on resolution
pipeline of fetchAddonInfo.  Returns the extracted version and the resolved
URL, or none when the add-on is skipped at any step. -/
def resolveCandidate (deps : FetchDeps) (addon : List Char) (mi : ManifestInfo) :
    Option (List Char × List Char) :=
  match resolveAddonKey (deps.activeMetadata addon) addon with
  | none => none
  | some (metaOpt, key0) =>
    let addonKey :=
      match mi.channel with
      | some c => key0 ++ '-' :: c
      | none => key0
    let gate :=
      match metaOpt with
      | some md =>
        addonCompatibleAccordingToMetadata (deps.devUpdates addon) md deps.current deps.backCompatTo
      | none => true
    if gate then
      match deps.catalog addonKey with
      | none => none
      | some url0 =>
        let urlStep :=
          if containsSub nvdaAddonDotLit url0 then some url0
          else secondaryResolve (deps.secondary addonKey).1 (deps.secondary addonKey).2
        match urlStep with
        | none => none
        | some url1 =>
          let addonUrl := if containsSub ['/'] url1 then url1 else deps.hostedBase ++ url1
          match extractVersion addon addonUrl with
          | none => none
          | some v => some (v, addonUrl)
    else none

/-- Source fetchAddonInfo (lines 208-287): the pipeline, then an entry is
recorded only when the extracted version differs from the installed one
(line 286). -/
def fetchAddonInfo (deps : FetchDeps) (addon : List Char) (mi : ManifestInfo) :
    Option UpdateEntry :=
  match resolveCandidate deps addon mi with
  | none => none
  | some (version, addonUrl) =>
    if mi.version ≠ version then some ⟨mi.version, version, addonUrl⟩ else none

end AddonUpdater

namespace AddonUpdater

/-! ## The check cycle: checkForAddonUpdate / checkForAddonUpdates -/

/-- State of the results dict after the catalog fetcher thread joins. -/
inductive CatalogOutcome (α : Type)
  | data (d : α)
  | error
  | empty
  deriving DecidableEq

/-- Source _currentCommunityAddons (lines 292-308): a certificate failure
triggers one retry after refreshing root certificates, and an exception from
that retry propagates out of the thread target, leaving results empty with
no "error" flag; any other IOError sets results["error"]. -/
def currentCommunityAddons {α : Type} (first retry : FetchAttempt α) : CatalogOutcome α :=
  match first with
  | .success d => .data d
  | .otherIOError => .error
  | .certError =>
    match retry with
    | .success d => .data d
    | .certError => .empty
    | .otherIOError => .empty

/-- Source _currentCommunityAddonsMetadata (lines 311-327): same retry shape,
but every failure leaves addonsData empty (cleared, or the thread dies) and
never flags an error.  The payload is the addonsData["active"] mapping;
absent data behaves as an empty dict. -/
def currentCommunityAddonsMetadata {α : Type} (first retry : FetchAttempt α) : Option α :=
  match first with
  | .success d => some d
  | .otherIOError => none
  | .certError =>
    match retry with
    | .success d => some d
    | .certError => none
    | .otherIOError => none

/-- All outcome parameters of one whole check cycle. -/
structure CycleEnv where
  secure : Bool
  catFirst : FetchAttempt (List Char → Option (List Char))
  catRetry : FetchAttempt (List Char → Option (List Char))
  metaFirst : FetchAttempt (List Char → Option RawMetadata)
  metaRetry : FetchAttempt (List Char → Option RawMetadata)
  noUpdates : List Char → Bool
  devUpdates : List Char → Bool
  secondary : List Char → FetchAttempt (Nat × List Char) × FetchAttempt (Nat × List Char)
  hostedBase : List Char
  current : Ver3
  backCompatTo : Ver3

/-- The FetchDeps a resolver worker sees, given the fetched catalog. -/
def mkFetchDeps (env : CycleEnv) (catalog : List Char → Option (List Char)) : FetchDeps where
  activeMetadata := (currentCommunityAddonsMetadata env.metaFirst env.metaRetry).getD (fun _ => none)
  devUpdates := env.devUpdates
  catalog := catalog
  secondary := env.secondary
  hostedBase := env.hostedBase
  current := env.current
  backCompatTo := env.backCompatTo

/-- One resolver worker per curAddons entry; each writes at most its own
info[addon] entry (entries listed in curAddons order; the source guarantees
no order). -/
def runResolvers (env : CycleEnv) (catalog : List Char → Option (List Char))
    (curAddons : List (List Char × ManifestInfo)) :
    List (List Char × ManifestInfo × UpdateEntry) :=
  curAddons.filterMap (fun p => (fetchAddonInfo (mkFetchDeps env catalog) p.1 p.2).map
    (fun e => (p.1, p.2, e)))

/-- Source checkForAddonUpdate (lines 290-359): the catalog list is fetched
and joined; results carrying the "error" flag raise (Except.error); otherwise
the resolver workers run over the fetched catalog, an empty dict when the
fetcher thread died. -/
def checkForAddonUpdate (env : CycleEnv) (curAddons : List (List Char × ManifestInfo)) :
    Except Unit (List (List Char × ManifestInfo × UpdateEntry)) :=
  match currentCommunityAddons env.catFirst env.catRetry with
  | .error => .error ()
  | .data cat => .ok (runResolvers env cat curAddons)
  | .empty => .ok (runResolvers env (fun _ => none) curAddons)

/-- Source lines 382-388: resolved update channel.  A manifest value "None"
means no channel; the devUpdates opt-in overrides the manifest in both
directions. -/
def resolveChannel (updateChannel0 : Option (List Char)) (optedIn : Bool) :
    Option (List Char) :=
  let updateChannel := if updateChannel0 = some ("None".toList) then none else updateChannel0
  if updateChannel ≠ some ("dev".toList) ∧ optedIn = true then some ("dev".toList)
  else if updateChannel = some ("dev".toList) ∧ optedIn = false then none
  else updateChannel

/-- One installed add-on as the host registry presents it. -/
structure AddonSnapshot where
  name : List Char
  summary : List Char
  version : List Char
  updateChannel : Option (List Char)

/-- Source lines 366-390: the curAddons dict — self-updating add-ons, the
vocalizer family and user-opted-out add-ons are filtered out, and the update
channel is resolved against the devUpdates opt-in set. -/
def buildCurAddons (env : CycleEnv) (addons : List AddonSnapshot) :
    List (List Char × ManifestInfo) :=
  addons.filterMap (fun a =>
    if a.name ∈ addonsWithUpdaters.map String.toList then none
    else if containsSub ("vocalizer".toList) (a.name.map Char.toLower) then none
    else if env.noUpdates a.name then none
    else some (a.name, ⟨a.summary, a.version, resolveChannel a.updateChannel (env.devUpdates a.name)⟩))

/-- Mirror of the AddonUpdateRecord class (lines 32-74). -/
structure AddonUpdateRecord where
  name : List Char
  summary : List Char
  version : List Char
  installedVersion : List Char
  url : List Char
  hash : Option (List Char)
  minimumNVDAVersion : Ver3
  lastTestedNVDAVersion : Ver3
  updateChannel : Option (List Char)

/-- The derived updateAvailable property (lines 72-74). -/
def AddonUpdateRecord.updateAvailable (r : AddonUpdateRecord) : Bool :=
  r.version != r.installedVersion

/-- Source checkForAddonUpdates (lines 362-409): secure mode returns
immediately; otherwise curAddons is built, the inner check runs (an error
re-raised to the caller), and the info entries are turned into
AddonUpdateRecord values; an empty info dict yields None. -/
def checkForAddonUpdates (env : CycleEnv) (addons : List AddonSnapshot) :
    Except Unit (Option (List AddonUpdateRecord)) :=
  if env.secure then .ok none
  else
    match checkForAddonUpdate env (buildCurAddons env addons) with
    | .error _ => .error ()
    | .ok info =>
      if info.isEmpty then .ok none
      else .ok (some (info.map (fun t =>
        { name := t.1
          summary := t.2.1.summary
          version := t.2.2.version
          installedVersion := t.2.2.curVersion
          url := t.2.2.path
          hash := none
          minimumNVDAVersion := (0, 0, 0)
          lastTestedNVDAVersion := (0, 0, 0)
          updateChannel := t.2.1.channel })))

/-! ## Download -/

/-- The remote resource downloadAddonUpdate opens: HTTP status, the declared
content-length header, and the byte stream the server will deliver. -/
structure Remote where
  code : Nat
  contentLength : Nat
  data : List Nat

/-- The distinctly-reported failure modes of downloadAddonUpdate. -/
inductive DownloadError
  | urlOpenFailed
  | badStatus (code : Nat)
  | contentTooShort
  | hashMismatch
  deriving DecidableEq

/-- Outcome of a download: the error if one was raised, and the bytes that
were written to the destination file (none: the file was never opened). -/
structure DownloadResult where
  error : Option DownloadError
  written : Option (List Nat)
  deriving DecidableEq

/-- Source lines 437-449, the streaming loop: chunk starts at 8192 and is
clamped to size - read whenever that is smaller; remote.read(chunk) delivers
up to chunk bytes of the remaining stream; an empty block ends the loop.
Returns total bytes read and the byte blocks written to the local file. -/
def downloadLoop (size : Nat) (read : Nat) (remaining : List Nat) : Nat × List Nat :=
  let chunk := if size - read < 8192 then size - read else 8192
  let block := remaining.take chunk
  if h : block = [] then (read, [])
  else
    let next := downloadLoop size (read + block.length) (remaining.drop chunk)
    (next.1, block ++ next.2)
termination_by remaining.length
decreasing_by
  have h2 : remaining.take (if size - read < 8192 then size - read else 8192) ≠ [] := h
  show (remaining.drop (if size - read < 8192 then size - read else 8192)).length < remaining.length
  rw [List.length_drop]
  have hrem : remaining ≠ [] := by
    intro h0
    rw [h0, List.take_nil] at h2
    exact h2 rfl
  have hlen : remaining.length ≠ 0 := fun h0 => hrem (List.eq_nil_of_length_eq_zero h0)
  have hchunk : (if size - read < 8192 then size - read else 8192) ≠ 0 := by
    intro h0
    rw [h0, List.take_zero] at h2
    exact h2 rfl
  generalize hc : (if size - read < 8192 then size - read else 8192) = c at hchunk ⊢
  omega

/-- Source downloadAddonUpdate (lines 415-456), with the sha1 hex digest
modeled by an abstract hasher over the received bytes.  The destination file
is opened for writing only after the status check, and every block is
written before the short-content and hash checks run. -/
def downloadAddonUpdate (remote : Option Remote) (fileHash : Option (List Char))
    (hasher : List Nat → List Char) : DownloadResult :=
  match remote with
  | none => ⟨some .urlOpenFailed, none⟩
  | some r =>
    if r.code ≠ 200 then ⟨some (.badStatus r.code), none⟩
    else
      let size := r.contentLength
      let run := downloadLoop size 0 r.data
      if run.1 < size then ⟨some .contentTooShort, some run.2⟩
      else
        match fileHash with
        | some h => if hasher run.2 ≠ h then ⟨some .hashMismatch, some run.2⟩ else ⟨none, some run.2⟩
        | none => ⟨none, some run.2⟩

/-! ## Install -/

/-- Source AddonInstallStatus (lines 460-465). -/
inductive AddonInstallStatus
  | AddonInstallSuccess
  | AddonInstallGenericError
  | AddonReadBundleFailed
  | AddonMinVersionNotMet
  | AddonNotTested
  deriving DecidableEq

/-- Source installAddonUpdate (lines 468-494).  The four outcomes of the
external collaborators are passed as booleans: whether AddonBundle(destPath)
opened, the two host version checks on the bundle, and whether the external
installer raised.  The pending-removal marking touches only registry state
and does not affect the returned status. -/
def installAddonUpdate (bundleReadOk hasRequiredSupport isTested installerRaises : Bool) :
    AddonInstallStatus :=
  if bundleReadOk = false then .AddonReadBundleFailed
  else if hasRequiredSupport = false then .AddonMinVersionNotMet
  else if isTested = false then .AddonNotTested
  else if installerRaises = true then .AddonInstallGenericError
  else .AddonInstallSuccess

end AddonUpdater

namespace AddonUpdater

/-! ## C3: the compatibility gate -/

/-- Lexicographic order on 3-tuples, as the spec states it. -/
def lexLe3 (a b : Ver3) : Prop :=
  a.1 < b.1 ∨ (a.1 = b.1 ∧ (a.2.1 < b.2.1 ∨ (a.2.1 = b.2.1 ∧ a.2.2 ≤ b.2.2)))

theorem pyTupleLe_iff (a b : Ver3) : pyTupleLe a b = true ↔ lexLe3 a b := by
  unfold pyTupleLe lexLe3
  split_ifs with h1 h2 h3 h4 <;> simp <;> omega

/-- C3.  addonCompatibleAccordingToMetadata returns true iff the add-on is
flagged for the dev channel (unconditionally, regardless of version bounds)
or the metadata's minimumNVDAVersion is at most the host's current version
and its lastTestedNVDAVersion is at least the host's back-compat floor, both
3-tuples compared lexicographically. -/
theorem c3_compatibility_gate (inDevUpdates : Bool) (md : RawMetadata)
    (current backCompatTo : Ver3) :
    addonCompatibleAccordingToMetadata inDevUpdates md current backCompatTo = true ↔
      (inDevUpdates = true ∨
        (lexLe3 md.minimumNVDAVersion current ∧ lexLe3 backCompatTo md.lastTestedNVDAVersion)) := by
  unfold addonCompatibleAccordingToMetadata
  cases inDevUpdates with
  | true => simp
  | false => simp [Bool.and_eq_true, pyTupleLe_iff]

/-! ## C8: the install gate -/

/-- C8.  installAddonUpdate checks bundle-read, minimum-version, not-tested
in that fixed order and the first failing condition determines the status:
in particular a bundle failing both version checks reports
AddonMinVersionNotMet for either value of the not-tested check; with all
checks passed, an installer exception yields AddonInstallGenericError and
otherwise the result is AddonInstallSuccess. -/
theorem c8_install_order :
    (∀ s t i, installAddonUpdate false s t i = .AddonReadBundleFailed) ∧
    (∀ t i, installAddonUpdate true false t i = .AddonMinVersionNotMet) ∧
    (∀ i, installAddonUpdate true true false i = .AddonNotTested) ∧
    installAddonUpdate true true true true = .AddonInstallGenericError ∧
    installAddonUpdate true true true false = .AddonInstallSuccess := by
  refine ⟨?_, ?_, ?_, rfl, rfl⟩ <;> decide

/-! ## C9: secure mode -/

/-- C9.  With the host's secure flag set, checkForAddonUpdates returns None
immediately: the result is Except.ok none for every environment, so no
catalog fetch, metadata fetch or per-extension resolution outcome can
influence it. -/
theorem c9_secure_mode (env : CycleEnv) (addons : List AddonSnapshot)
    (h : env.secure = true) :
    checkForAddonUpdates env addons = .ok none := by
  unfold checkForAddonUpdates
  rw [if_pos h]

/-- A sample environment with the secure flag set. -/
def secureEnv : CycleEnv where
  secure := true
  catFirst := .otherIOError
  catRetry := .otherIOError
  metaFirst := .otherIOError
  metaRetry := .otherIOError
  noUpdates := fun _ => false
  devUpdates := fun _ => false
  secondary := fun _ => (.otherIOError, .otherIOError)
  hostedBase := []
  current := (2022, 1, 0)
  backCompatTo := (2021, 1, 0)

/-- C9 witness. -/
theorem c9_secure_mode_witness : checkForAddonUpdates secureEnv [] = .ok none :=
  c9_secure_mode secureEnv [] rfl

/-! ## C10: channel resolution -/

theorem resolveChannel_eq_dev_iff (mc : Option (List Char)) (b : Bool) :
    resolveChannel mc b = some ("dev".toList) ↔ b = true := by
  unfold resolveChannel
  set u := if mc = some ("None".toList) then none else mc with hu
  by_cases hd : u = some ("dev".toList) <;> cases b <;> simp [hd]

/-- C10.  For every extension prepared by checkForAddonUpdates, the resolved
channel is "dev" iff the extension is in the devUpdates opt-in set; a
manifest "dev" channel is reset to the default (None) without the opt-in,
and with the opt-in any manifest channel resolves to "dev". -/
theorem c10_channel_resolution :
    (∀ env addons a mi, (a, mi) ∈ buildCurAddons env addons →
      (mi.channel = some ("dev".toList) ↔ env.devUpdates a = true)) ∧
    resolveChannel (some ("dev".toList)) false = none ∧
    (∀ mc, resolveChannel mc true = some ("dev".toList)) := by
  refine ⟨?_, by decide, fun mc => (resolveChannel_eq_dev_iff mc true).mpr rfl⟩
  intro env addons a mi hmem
  unfold buildCurAddons at hmem
  obtain ⟨x, hx, hsome⟩ := List.mem_filterMap.mp hmem
  split_ifs at hsome with h1 h2 h3
  have hpair := Option.some.inj hsome
  injection hpair with ha hmi
  subst ha
  subst hmi
  exact resolveChannel_eq_dev_iff x.updateChannel (env.devUpdates x.name)

/-- C10 witness: one opted-in add-on with a stable manifest channel resolves
to the dev channel. -/
theorem c10_channel_resolution_witness :
    ("wordNav".toList, (⟨"WordNav".toList, "1.0".toList, some ("dev".toList)⟩ : ManifestInfo)).2.channel =
        some ("dev".toList) ↔
      (fun n => n == "wordNav".toList) ("wordNav".toList) = true :=
  c10_channel_resolution.1
    { secureEnv with devUpdates := fun n => n == "wordNav".toList, secure := false }
    [⟨"wordNav".toList, "WordNav".toList, "1.0".toList, some ("stable".toList)⟩]
    ("wordNav".toList) ⟨"WordNav".toList, "1.0".toList, some ("dev".toList)⟩ (by decide)

end AddonUpdater

namespace AddonUpdater

/-! ## C2: the update gate -/

theorem fetchAddonInfo_version_ne (deps : FetchDeps) (addon : List Char) (mi : ManifestInfo)
    (e : UpdateEntry) (h : fetchAddonInfo deps addon mi = some e) :
    e.version ≠ e.curVersion := by
  unfold fetchAddonInfo at h
  cases hrc : resolveCandidate deps addon mi with
  | none => rw [hrc] at h; simp at h
  | some p =>
    obtain ⟨v, url⟩ := p
    rw [hrc] at h
    simp only [] at h
    by_cases hv : mi.version = v
    · rw [if_neg (fun hne => hne hv)] at h
      exact absurd h (by simp)
    · rw [if_pos hv] at h
      have he := Option.some.inj h
      rw [← he]
      exact fun hc => hv hc.symm

theorem runResolvers_mem (env : CycleEnv) (cat : List Char → Option (List Char))
    (curAddons : List (List Char × ManifestInfo)) (t : List Char × ManifestInfo × UpdateEntry)
    (ht : t ∈ runResolvers env cat curAddons) :
    fetchAddonInfo (mkFetchDeps env cat) t.1 t.2.1 = some t.2.2 := by
  unfold runResolvers at ht
  obtain ⟨p, hp, hsome⟩ := List.mem_filterMap.mp ht
  cases hf : fetchAddonInfo (mkFetchDeps env cat) p.1 p.2 with
  | none => rw [hf] at hsome; simp at hsome
  | some e =>
    rw [hf] at hsome
    have hte := Option.some.inj hsome
    rw [← hte]
    exact hf

/-- C2.  An update entry is recorded by fetchAddonInfo iff the extracted
version differs from the installed version as plain strings: once the
pipeline resolves a candidate (v, url), the entry is produced exactly when
v differs from the installed version and nothing is produced when they are
equal; consequently every AddonUpdateRecord returned by checkForAddonUpdates
has updateAvailable true. -/
theorem c2_update_gate :
    (∀ deps addon mi v url, resolveCandidate deps addon mi = some (v, url) →
      ((fetchAddonInfo deps addon mi = some ⟨mi.version, v, url⟩ ↔ v ≠ mi.version) ∧
       (fetchAddonInfo deps addon mi = none ↔ v = mi.version))) ∧
    (∀ env addons records, checkForAddonUpdates env addons = .ok (some records) →
      ∀ r ∈ records, r.updateAvailable = true) := by
  constructor
  · intro deps addon mi v url hrc
    unfold fetchAddonInfo
    simp only [hrc]
    by_cases hv : mi.version = v
    · rw [if_neg (fun hne => hne hv)]
      exact ⟨⟨fun h => absurd h (by simp), fun hne => absurd hv.symm hne⟩,
        ⟨fun _ => hv.symm, fun _ => rfl⟩⟩
    · rw [if_pos hv]
      exact ⟨⟨fun _ hc => hv hc.symm, fun _ => rfl⟩,
        ⟨fun h => absurd h (by simp), fun hc => absurd hc.symm hv⟩⟩
  · intro env addons records h r hr
    unfold checkForAddonUpdates at h
    by_cases hs : env.secure = true
    · rw [if_pos hs] at h
      exact absurd (Except.ok.inj h) (by simp)
    · rw [if_neg hs] at h
      cases hc : checkForAddonUpdate env (buildCurAddons env addons) with
      | error u =>
        simp only [hc] at h
        exact absurd h (by simp)
      | ok info =>
        simp only [hc] at h
        by_cases he : info.isEmpty
        · rw [if_pos he] at h
          exact absurd (Except.ok.inj h) (by simp)
        · rw [if_neg he] at h
          have hrec := Option.some.inj (Except.ok.inj h)
          rw [← hrec] at hr
          obtain ⟨t, ht, rfl⟩ := List.mem_map.mp hr
          have hinfo : ∃ cat, info = runResolvers env cat (buildCurAddons env addons) := by
            unfold checkForAddonUpdate at hc
            cases hcat : currentCommunityAddons env.catFirst env.catRetry with
            | data d => rw [hcat] at hc; exact ⟨d, (Except.ok.inj hc).symm⟩
            | error => rw [hcat] at hc; exact absurd hc (by simp)
            | empty => rw [hcat] at hc; exact ⟨fun _ => none, (Except.ok.inj hc).symm⟩
          obtain ⟨cat, hcat⟩ := hinfo
          rw [hcat] at ht
          have hne := fetchAddonInfo_version_ne _ _ _ _ (runResolvers_mem env cat _ t ht)
          exact bne_iff_ne.mpr hne

/-- A concrete dependency bundle: no metadata, the catalog maps the clock key
to a direct download file. -/
def sampleDeps : FetchDeps where
  activeMetadata := fun _ => none
  devUpdates := fun _ => false
  catalog := fun k => if k = "cac".toList then some ("clock-2.0.nvda-addon".toList) else none
  secondary := fun _ => (.otherIOError, .otherIOError)
  hostedBase := "https://addons.nvda-project.org/files/".toList
  current := (2022, 1, 0)
  backCompatTo := (2021, 1, 0)

/-- C2 witness: with installed version 1.0 and resolved version 2.0 the entry
is emitted. -/
theorem c2_update_gate_witness :
    fetchAddonInfo sampleDeps ("clock".toList) ⟨"Clock".toList, "1.0".toList, none⟩ =
      some ⟨"1.0".toList, "2.0".toList,
        "https://addons.nvda-project.org/files/clock-2.0.nvda-addon".toList⟩ :=
  ((c2_update_gate.1 sampleDeps ("clock".toList) ⟨"Clock".toList, "1.0".toList, none⟩
    ("2.0".toList) ("https://addons.nvda-project.org/files/clock-2.0.nvda-addon".toList)
    (by decide)).1).mpr (by decide)

/-! ## C5: metadata fallback -/

/-- A metadata record lacking the required "author" field.  Line 177 of the
source indexes addonMetadata[field] directly, so validating this record
raises KeyError; the call at line 219 sits outside any try, killing the
resolver worker. -/
def fieldMissingMetadata : RawMetadata where
  summaryType := some .str
  authorType := none
  minimumType := some .list
  lastTestedType := some .list
  addonKeyField := none
  minimumNVDAVersion := (0, 0, 0)
  lastTestedNVDAVersion := (0, 0, 0)

/-- C5 counterexample.  The claim says a missing or invalid metadata record
never suppresses the built-in fallback, the extension being skipped at this
step only when its name is also absent from names2urls.  But a record
missing one of the four validated fields makes validateAddonMetadata raise
KeyError, the worker dies, and clock is skipped even though names2urls maps
it to cac — with no metadata at all, the very same environment produces an
update entry for it. -/
theorem c5_counterexample :
    resolveAddonKey (some fieldMissingMetadata) ("clock".toList) = none ∧
    names2urlsLookup ("clock".toList) = some ("cac".toList) ∧
    fetchAddonInfo { sampleDeps with activeMetadata := fun _ => some fieldMissingMetadata }
        ("clock".toList) ⟨"Clock".toList, "1.0".toList, none⟩ = none ∧
    fetchAddonInfo sampleDeps ("clock".toList) ⟨"Clock".toList, "1.0".toList, none⟩ ≠ none := by
  refine ⟨rfl, by decide, rfl, by decide⟩

/-- C5 (amended).  A wholly absent metadata record, or one that carries all
four validated fields but fails the type checks (validation returns False),
makes fetchAddonInfo resolve the addon key from the built-in names2urls
table, the add-on being dropped at that step only when its name is absent
from the table too; but a record missing one of the validated fields crashes
validation (KeyError), kills the resolver worker and skips the add-on even
when the table has its name.  With the catalog fetch succeeding,
metadata-fetch outcomes never make checkForAddonUpdate fail: the resolvers
always run. -/
theorem c5_metadata_fallback :
    (∀ addon, resolveAddonKey none addon =
      (names2urlsLookup addon).map (fun k => ((none : Option RawMetadata), k))) ∧
    (∀ addon md, validateAddonMetadata md = some false →
      resolveAddonKey (some md) addon =
        (names2urlsLookup addon).map (fun k => ((none : Option RawMetadata), k))) ∧
    (∀ env curAddons cat, env.catFirst = FetchAttempt.success cat →
      checkForAddonUpdate env curAddons = .ok (runResolvers env cat curAddons)) ∧
    (∀ addon md, validateAddonMetadata md = none →
      resolveAddonKey (some md) addon = none) := by
  refine ⟨fun addon => rfl, ?_, ?_, ?_⟩
  · intro addon md hval
    unfold resolveAddonKey
    simp only [hval]
    rfl
  · intro env curAddons cat hcf
    unfold checkForAddonUpdate
    rw [hcf]
    rfl
  · intro addon md hval
    unfold resolveAddonKey
    simp only [hval]

/-- A metadata record whose minimumNVDAVersion field is a string rather than
a list: all validated fields are present, so validation completes and
returns False. -/
def badTypedMetadata : RawMetadata where
  summaryType := some .str
  authorType := some .str
  minimumType := some .str
  lastTestedType := some .list
  addonKeyField := none
  minimumNVDAVersion := (0, 0, 0)
  lastTestedNVDAVersion := (0, 0, 0)

/-- C5 witness: the invalid record falls back to the built-in key of clock. -/
theorem c5_metadata_fallback_witness :
    resolveAddonKey (some badTypedMetadata) ("clock".toList) =
      some ((none : Option RawMetadata), "cac".toList) := by
  rw [c5_metadata_fallback.2.1 ("clock".toList) badTypedMetadata (by decide)]
  decide

end AddonUpdater

namespace AddonUpdater

/-! ## C4: catalog-fetch failure -/

theorem resolveCandidate_empty_catalog (deps : FetchDeps)
    (hcat : ∀ k, deps.catalog k = none) (addon : List Char) (mi : ManifestInfo) :
    resolveCandidate deps addon mi = none := by
  unfold resolveCandidate
  cases hk : resolveAddonKey (deps.activeMetadata addon) addon with
  | none => rfl
  | some p =>
    obtain ⟨metaOpt, key0⟩ := p
    simp only [hcat]
    split <;> rfl

theorem runResolvers_empty_catalog (env : CycleEnv)
    (curAddons : List (List Char × ManifestInfo)) :
    runResolvers env (fun _ => none) curAddons = [] := by
  unfold runResolvers
  rw [List.filterMap_eq_nil_iff]
  intro p hp
  have hf : fetchAddonInfo (mkFetchDeps env (fun _ => none)) p.1 p.2 = none := by
    unfold fetchAddonInfo
    rw [resolveCandidate_empty_catalog _ (fun k => rfl) p.1 p.2]
  rw [hf]
  rfl

theorem checkForAddonUpdate_error_iff (env : CycleEnv)
    (curAddons : List (List Char × ManifestInfo)) :
    checkForAddonUpdate env curAddons = .error () ↔ env.catFirst = .otherIOError := by
  unfold checkForAddonUpdate
  cases hcf : env.catFirst with
  | success d => simp [currentCommunityAddons]
  | otherIOError => simp [currentCommunityAddons]
  | certError =>
    cases hcr : env.catRetry with
    | success d => simp [currentCommunityAddons, hcr]
    | certError => simp [currentCommunityAddons, hcr]
    | otherIOError => simp [currentCommunityAddons, hcr]

/-- Environment whose catalog fetch hits a certificate failure and whose
retry then also fails, killing the fetcher thread before it can flag an
error. -/
def certFailEnv : CycleEnv where
  secure := false
  catFirst := .certError
  catRetry := .otherIOError
  metaFirst := .otherIOError
  metaRetry := .otherIOError
  noUpdates := fun _ => false
  devUpdates := fun _ => false
  secondary := fun _ => (.otherIOError, .otherIOError)
  hostedBase := []
  current := (2022, 1, 0)
  backCompatTo := (2021, 1, 0)

/-- C4 counterexample.  The claim says every catalog-list transport failure
(after the one certificate retry) makes the check cycle fail.  But when the
first attempt fails with a certificate error and the retry also fails, the
fetcher thread dies without setting the error flag: results stays empty,
checkForAddonUpdate returns an empty result instead of raising, and
checkForAddonUpdates reports None (no updates) instead of an error. -/
theorem c4_counterexample :
    currentCommunityAddons certFailEnv.catFirst certFailEnv.catRetry =
        CatalogOutcome.empty ∧
    checkForAddonUpdate certFailEnv [("clock".toList, ⟨"Clock".toList, "1.0".toList, none⟩)] =
        .ok [] ∧
    checkForAddonUpdates certFailEnv [⟨"clock".toList, "Clock".toList, "1.0".toList, none⟩] =
        .ok none := by
  exact ⟨rfl, rfl, rfl⟩

/-- C4 (amended).  checkForAddonUpdate raises, and checkForAddonUpdates
surfaces the error, exactly when the first catalog attempt fails with a
non-certificate IOError; when the certificate-refresh retry itself fails the
fetcher thread dies silently and the cycle returns an empty result (no
partial list, no error); a successful fetch never raises. -/
theorem c4_catalog_failure (env : CycleEnv) (curAddons : List (List Char × ManifestInfo))
    (addons : List AddonSnapshot) :
    (checkForAddonUpdate env curAddons = .error () ↔ env.catFirst = .otherIOError) ∧
    (env.catFirst = .certError →
      (env.catRetry = .certError ∨ env.catRetry = .otherIOError) →
      checkForAddonUpdate env curAddons = .ok []) ∧
    (env.secure = false →
      (checkForAddonUpdates env addons = .error () ↔ env.catFirst = .otherIOError)) := by
  refine ⟨checkForAddonUpdate_error_iff env curAddons, ?_, ?_⟩
  · intro hcf hcr
    unfold checkForAddonUpdate
    rw [hcf]
    have hout : currentCommunityAddons (FetchAttempt.certError :
        FetchAttempt (List Char → Option (List Char))) env.catRetry = .empty := by
      rcases hcr with h | h <;> rw [h] <;> rfl
    rw [hout, runResolvers_empty_catalog]
  · intro hs
    unfold checkForAddonUpdates
    rw [if_neg (by simp [hs])]
    rw [← checkForAddonUpdate_error_iff env (buildCurAddons env addons)]
    cases hc : checkForAddonUpdate env (buildCurAddons env addons) with
    | error u =>
      cases u
      simp
    | ok info =>
      by_cases he : info.isEmpty <;> simp [he]

/-- C4 amended-claim witness: the cert-then-fail path yields an empty ok
result. -/
theorem c4_catalog_failure_witness :
    checkForAddonUpdate certFailEnv [] = .ok [] :=
  (c4_catalog_failure certFailEnv [] []).2.1 rfl (Or.inr rfl)

end AddonUpdater



namespace AddonUpdater

/-! ## C6 and C7: the download loop -/

theorem downloadLoop_unfold (size read : Nat) (remaining : List Nat) :
    downloadLoop size read remaining =
      if remaining.take (if size - read < 8192 then size - read else 8192) = [] then (read, [])
      else
        ((downloadLoop size
            (read + (remaining.take (if size - read < 8192 then size - read else 8192)).length)
            (remaining.drop (if size - read < 8192 then size - read else 8192))).1,
          remaining.take (if size - read < 8192 then size - read else 8192) ++
            (downloadLoop size
              (read + (remaining.take (if size - read < 8192 then size - read else 8192)).length)
              (remaining.drop (if size - read < 8192 then size - read else 8192))).2) := by
  rw [downloadLoop]
  rfl

theorem downloadLoop_eq (size : Nat) :
    ∀ (n : Nat) (remaining : List Nat) (read : Nat), remaining.length ≤ n →
      downloadLoop size read remaining =
        (read + min (size - read) remaining.length, remaining.take (size - read)) := by
  intro n
  induction n with
  | zero =>
    intro remaining read hle
    have h0 : remaining = [] := List.eq_nil_of_length_eq_zero (Nat.le_zero.mp hle)
    subst h0
    rw [downloadLoop_unfold, if_pos List.take_nil]
    simp
  | succ n ih =>
    intro remaining read hle
    rw [downloadLoop_unfold]
    generalize hcif : (if size - read < 8192 then size - read else 8192) = c
    have hcs : c ≤ size - read := by
      rw [← hcif]
      split <;> omega
    by_cases hb : remaining.take c = []
    · rw [if_pos hb]
      rw [List.take_eq_nil_iff] at hb
      rcases hb with hc0 | hnil
      · subst hc0
        have hs0 : size - read = 0 := by
          by_cases h8 : size - read < 8192
          · rw [if_pos h8] at hcif
            exact hcif
          · rw [if_neg h8] at hcif
            omega
        rw [hs0]
        simp
      · subst hnil
        simp
    · rw [if_neg hb]
      rw [List.take_eq_nil_iff] at hb
      push_neg at hb
      obtain ⟨hc0, hnil⟩ := hb
      have hlen0 : remaining.length ≠ 0 := fun h0 => hnil (List.eq_nil_of_length_eq_zero h0)
      have hlen' : (remaining.drop c).length ≤ n := by
        rw [List.length_drop]
        omega
      simp only [ih _ _ hlen']
      rw [Prod.mk.injEq]
      constructor
      · rw [List.length_take, List.length_drop]
        omega
      · by_cases hlc : remaining.length ≤ c
        · rw [List.take_of_length_le hlc, List.drop_eq_nil_of_le hlc, List.take_nil,
            List.append_nil, List.take_of_length_le (le_trans hlc hcs)]
        · push_neg at hlc
          have hbc : (remaining.take c).length = c := by
            rw [List.length_take]
            omega
          rw [hbc]
          have harg : size - (read + c) = size - read - c := by omega
          rw [harg, ← List.take_add]
          have hsum : c + (size - read - c) = size - read := by omega
          rw [hsum]

/-- Closed form of downloadAddonUpdate on an opened response: the loop reads
min(contentLength, available) bytes and writes them before the verification
checks run. -/
theorem downloadAddonUpdate_some (r : Remote) (fh : Option (List Char))
    (hasher : List Nat → List Char) :
    downloadAddonUpdate (some r) fh hasher =
      if r.code ≠ 200 then ⟨some (.badStatus r.code), none⟩
      else if r.data.length < r.contentLength then
        ⟨some .contentTooShort, some (r.data.take r.contentLength)⟩
      else
        match fh with
        | some h =>
          if hasher (r.data.take r.contentLength) ≠ h then
            ⟨some .hashMismatch, some (r.data.take r.contentLength)⟩
          else ⟨none, some (r.data.take r.contentLength)⟩
        | none => ⟨none, some (r.data.take r.contentLength)⟩ := by
  have hrun : downloadLoop r.contentLength 0 r.data =
      (min r.contentLength r.data.length, r.data.take r.contentLength) := by
    rw [downloadLoop_eq r.contentLength r.data.length r.data 0 le_rfl]
    rw [Nat.sub_zero, Nat.zero_add]
  by_cases hcode : r.code ≠ 200
  · simp only [downloadAddonUpdate, if_pos hcode]
  · simp only [downloadAddonUpdate, if_neg hcode, hrun]
    by_cases hshort : r.data.length < r.contentLength
    · rw [if_pos (show (min r.contentLength r.data.length,
          r.data.take r.contentLength).1 < r.contentLength by simp; omega),
        if_pos hshort]
    · rw [if_neg (show ¬(min r.contentLength r.data.length,
          r.data.take r.contentLength).1 < r.contentLength by simp; omega),
        if_neg hshort]

/-- C6.  downloadAddonUpdate fails with a distinct error in exactly these
cases: the URL cannot be opened; the response status is not 200; the bytes
delivered fall short of the declared content length; or a hash was supplied
and the computed hash of the received bytes differs from it (raised even
though the byte count matched).  Otherwise, with a well-formed content
length, the call completes without error. -/
theorem c6_download_failures :
    (∀ fh hasher, downloadAddonUpdate none fh hasher = ⟨some .urlOpenFailed, none⟩) ∧
    (∀ r fh hasher, r.code ≠ 200 →
      downloadAddonUpdate (some r) fh hasher = ⟨some (.badStatus r.code), none⟩) ∧
    (∀ r fh hasher, r.code = 200 → r.data.length < r.contentLength →
      downloadAddonUpdate (some r) fh hasher = ⟨some .contentTooShort, some r.data⟩) ∧
    (∀ r h hasher, r.code = 200 → r.contentLength ≤ r.data.length →
      hasher (r.data.take r.contentLength) ≠ h →
      downloadAddonUpdate (some r) (some h) hasher =
        ⟨some .hashMismatch, some (r.data.take r.contentLength)⟩) ∧
    (∀ r fh hasher, r.code = 200 → r.contentLength ≤ r.data.length →
      (fh = none ∨ ∃ h, fh = some h ∧ hasher (r.data.take r.contentLength) = h) →
      (downloadAddonUpdate (some r) fh hasher).error = none) := by
  refine ⟨fun fh hasher => rfl, ?_, ?_, ?_, ?_⟩
  · intro r fh hasher hcode
    rw [downloadAddonUpdate_some, if_pos hcode]
  · intro r fh hasher hcode hshort
    rw [downloadAddonUpdate_some, if_neg (show ¬(r.code ≠ 200) from fun hne => hne hcode),
      if_pos hshort, List.take_of_length_le (Nat.le_of_lt hshort)]
  · intro r h hasher hcode hlen hhash
    simp only [downloadAddonUpdate_some]
    rw [if_neg (show ¬(r.code ≠ 200) from fun hne => hne hcode),
      if_neg (show ¬r.data.length < r.contentLength from by omega)]
    rw [if_pos hhash]
  · intro r fh hasher hcode hlen hok
    rcases hok with hnone | ⟨h, hfh, heq⟩
    · subst hnone
      simp only [downloadAddonUpdate_some]
      rw [if_neg (show ¬(r.code ≠ 200) from fun hne => hne hcode),
        if_neg (show ¬r.data.length < r.contentLength from by omega)]
    · subst hfh
      simp only [downloadAddonUpdate_some]
      rw [if_neg (show ¬(r.code ≠ 200) from fun hne => hne hcode),
        if_neg (show ¬r.data.length < r.contentLength from by omega)]
      rw [if_neg (show ¬(hasher (r.data.take r.contentLength) ≠ h) from fun hne => hne heq)]

/-- A concrete stand-in for the sha1 hex digest. -/
def constHasher : List Nat → List Char := fun _ => []

/-- C6 witness: a short delivery fails with content-too-short, a bad status
with its own distinct error. -/
theorem c6_download_failures_witness :
    downloadAddonUpdate (some ⟨200, 5, [1, 2, 3]⟩) none constHasher =
        ⟨some .contentTooShort, some [1, 2, 3]⟩ ∧
    downloadAddonUpdate (some ⟨404, 5, [1, 2, 3]⟩) none constHasher =
        ⟨some (.badStatus 404), none⟩ :=
  ⟨c6_download_failures.2.2.1 ⟨200, 5, [1, 2, 3]⟩ none constHasher rfl (by decide),
   c6_download_failures.2.1 ⟨404, 5, [1, 2, 3]⟩ none constHasher (by decide)⟩

/-- C7 counterexample.  The claim says that on a hash-mismatch failure no
downloaded bytes have reached the destination file.  But downloadAddonUpdate
opens destPath and writes every chunk while streaming, before the hash check
runs: here the download fails with hashMismatch yet all three bytes are
already in the destination file. -/
theorem c7_counterexample :
    (downloadAddonUpdate (some ⟨200, 3, [1, 2, 3]⟩) (some ['x']) constHasher).error =
        some .hashMismatch ∧
    (downloadAddonUpdate (some ⟨200, 3, [1, 2, 3]⟩) (some ['x']) constHasher).written =
        some [1, 2, 3] ∧
    ([1, 2, 3] : List Nat) ≠ [] := by
  have hval : downloadAddonUpdate (some ⟨200, 3, [1, 2, 3]⟩) (some ['x']) constHasher =
      ⟨some .hashMismatch, some [1, 2, 3]⟩ := by
    simp only [downloadAddonUpdate_some]
    rw [if_neg (by decide), if_neg (by decide)]
    rw [if_pos (by decide)]
    rfl
  rw [hval]
  exact ⟨rfl, rfl, by decide⟩

/-- C7 (amended).  Verification happens after the stream reaches disk: for
every 200 response, whatever the short-content or hash outcome, the received
bytes (the stream truncated at the declared content length) have been
written to the destination file by the time downloadAddonUpdate returns or
raises. -/
theorem c7_write_before_verify (r : Remote) (fh : Option (List Char))
    (hasher : List Nat → List Char) (h200 : r.code = 200) :
    (downloadAddonUpdate (some r) fh hasher).written =
      some (r.data.take r.contentLength) := by
  cases fh with
  | none =>
    simp only [downloadAddonUpdate_some]
    rw [if_neg (show ¬(r.code ≠ 200) from fun hne => hne h200)]
    by_cases hshort : r.data.length < r.contentLength
    · rw [if_pos hshort]
    · rw [if_neg hshort]
  | some h =>
    simp only [downloadAddonUpdate_some]
    rw [if_neg (show ¬(r.code ≠ 200) from fun hne => hne h200)]
    by_cases hshort : r.data.length < r.contentLength
    · rw [if_pos hshort]
    · rw [if_neg hshort]
      by_cases hh : hasher (r.data.take r.contentLength) ≠ h
      · rw [if_pos hh]
      · rw [if_neg hh]

/-- C7 amended-claim witness. -/
theorem c7_write_before_verify_witness :
    (downloadAddonUpdate (some ⟨200, 2, [7, 8, 9]⟩) none constHasher).written = some [7, 8] :=
  c7_write_before_verify ⟨200, 2, [7, 8, 9]⟩ none constHasher rfl

end AddonUpdater
